import Mathlib

/-!
Shallow embedding of IShamraI/post-approver-bot (Go) and verification of
spec claims about it.

The program is a Telegram moderation bot: `src/main.go` runs one sequential
loop over inbound updates, holding a single mutable `currentPost` slot
(`*airtable.Record`, here `Option Candidate`), a ttlcache skip cache with a
24-hour TTL, and dispatching commands / button texts.  Backing-store
interactions (Airtable query and partial update) are modelled as oracle
inputs to the step function; the outbound reply and the list of
backing-store calls are outputs.  A Go nil-pointer dereference or
`log.Panic` is modelled as the `Outcome.panic` result (process aborts, no
reply is sent, no successor state).
-/

namespace PostApprover

/-- Button texts from `internal/buttons/buttons.go`:
`ApproveButton = New("✔️ Approve")`. -/
def approveButtonText : String := "✔️ Approve"

/-- `RejectButton = New("❌ Reject")` in `internal/buttons/buttons.go`. -/
def rejectButtonText : String := "❌ Reject"

/-- `SkipButton = New("👀 Skip")` in `internal/buttons/buttons.go`. -/
def skipButtonText : String := "👀 Skip"

/-- An Airtable record as used by `main.go`: the query projects the fields
`Title` and `guid` (`ReturnFields("Title", "guid")`), and those are the only
fields the loop reads. -/
structure Candidate where
  guid : String
  title : String
  deriving Repr, DecidableEq

/-- The cache TTL from `main.go`: `ttlcache.WithTTL[string, bool](24 * time.Hour)`,
measured here in seconds. -/
def ttlSeconds : Nat := 24 * 60 * 60

/-- The ttlcache skip cache: each entry stores its key together with its
absolute expiry instant (`now + TTL` at insertion, as ttlcache computes
`expiresAt`).  Time is a simulated clock in seconds (`Nat`). -/
structure Cache where
  entries : List (String × Nat)
  deriving Repr, DecidableEq

/-- `cache.Has(key)`: the key is present and not yet expired.  ttlcache
treats an item as expired once its `expiresAt` lies strictly in the past and
the background sweeper (`go cache.Start()`) removes it then, so an entry
answers `true` while `now ≤ expiresAt`. -/
def Cache.has (c : Cache) (now : Nat) (k : String) : Bool :=
  c.entries.any (fun e => e.1 == k && decide (now ≤ e.2))

/-- `cache.Set(key, true, ttlcache.DefaultTTL)`: inserts the key with expiry
`now + 24h`, replacing any previous entry for the same key. -/
def Cache.set (c : Cache) (now : Nat) (k : String) : Cache :=
  ⟨(k, now + ttlSeconds) :: c.entries.filter (fun e => !(e.1 == k))⟩

/-- The field map of `UpdateRecordPartial` in the approve / reject branches of
`main.go`; the Go map literal contains exactly the keys `IsApproved`,
`IsRejected` and `ToInvistigate` (sic). -/
structure PartialUpdate where
  isApproved : Bool
  isRejected : Bool
  toInvistigate : Bool
  deriving Repr, DecidableEq

/-- A backing-store (Airtable) call made while handling one update. -/
inductive StoreCall where
  | query : StoreCall
  | update (guid : String) (fields : PartialUpdate) : StoreCall
  deriving Repr, DecidableEq

/-- Result of the Airtable `GetRecords...Do()` query, supplied as an oracle. -/
inductive QueryResult where
  | ok (records : List Candidate) : QueryResult
  | err (e : String) : QueryResult
  deriving Repr, DecidableEq

/-- Result of `UpdateRecordPartial`, supplied as an oracle. -/
inductive UpdResult where
  | ok : UpdResult
  | err (e : String) : UpdResult
  deriving Repr, DecidableEq

/-- Mutable state of the main loop: the `currentPost` slot and the skip
cache. -/
structure BotState where
  currentPost : Option Candidate
  cache : Cache
  deriving Repr, DecidableEq

/-- One inbound Telegram update as consumed by the loop: the sender's chat
id, whether the message is a command (`update.Message.IsCommand()`), and the
command name resp. message text. -/
structure Update where
  senderId : Int
  isCommand : Bool
  content : String
  deriving Repr, DecidableEq

/-- What handling one update produced towards the outside world. -/
inductive Outcome where
  /-- Unauthorized sender: logged, `continue`, no reply sent. -/
  | dropped : Outcome
  /-- `bot.Send(msg)` with this text (the getpost reply also attaches the
  one-time keyboard; the keyboard carries no state and is not modelled). -/
  | reply (text : String) : Outcome
  /-- The process dies: `log.Panic(err)` or a nil-pointer dereference. -/
  | panic (msg : String) : Outcome
  deriving Repr, DecidableEq

/-- Result of handling one update: the outward outcome, the successor state
(`none` when the process panicked), and the backing-store calls made. -/
structure StepResult where
  outcome : Outcome
  next : Option BotState
  calls : List StoreCall
  deriving Repr, DecidableEq

/-- Modelled from the spec: the package `internal/helpers` is absent from the
sources; `main.go` calls `helpers.IDContains(envVars.TelegramWhiteList,
update.FromChat().ID)`.  Per the spec, only events from an allow-listed set
of sender identities are processed, so `IDContains` is membership of the id
in the whitelist slice. -/
def IDContains (list : List Int) (id : Int) : Bool :=
  list.contains id

/-- The message text of the Go panic raised by dereferencing a nil
`*airtable.Record`. -/
def nilDeref : String := "runtime error: invalid memory address or nil pointer dereference"

/-- The body of `for update := range updates` in `main.go`, translated
branch by branch.  `whitelist` is `envVars.TelegramWhiteList`, `st` the
current `currentPost` / cache state, `now` the simulated clock, `qr` / `ur`
the oracle results of the Airtable calls the branch would make. -/
def step (whitelist : List Int) (st : BotState) (now : Nat) (u : Update)
    (qr : QueryResult) (ur : UpdResult) : StepResult :=
  if !(IDContains whitelist u.senderId) then
    -- log.Printf("got update from unknown user: ..."); continue
    ⟨.dropped, some st, []⟩
  else if u.isCommand then
    match u.content with
    | "start" => ⟨.reply "Hi!", some st, []⟩
    | "getpost" =>
      -- table.GetRecords()...Do(); on error: log.Panic(err)
      match qr with
      | .err e => ⟨.panic e, none, [.query]⟩
      | .ok records =>
        -- for i, record := range records.Records {
        --   if cache.Has(record.Fields["guid"].(string)) { continue }
        --   currentPost = records.Records[i]; break }
        -- the loop leaves currentPost unchanged when no record passes the filter
        let cur := match records.find? (fun r => !(st.cache.has now r.guid)) with
          | some r => some r
          | none => st.currentPost
        match cur with
        | none =>
          -- msg.Text = fmt.Sprintf(..., currentPost.Fields["Title"], ...)
          -- dereferences the nil currentPost
          ⟨.panic nilDeref, none, [.query]⟩
        | some p =>
          ⟨.reply ("Пост: " ++ p.title ++ "\n" ++ p.guid),
           some ⟨some p, st.cache⟩, [.query]⟩
    | "help" => ⟨.reply "I understand /sayhi and /status.", some st, []⟩
    | "status" => ⟨.reply "I'm ok.", some st, []⟩
    | _ => ⟨.reply "I don't know that command", some st, []⟩
  else
    if u.content == approveButtonText then
      match st.currentPost with
      | none => ⟨.panic nilDeref, none, []⟩ -- currentPost.UpdateRecordPartial on nil
      | some p =>
        match ur with
        | .ok =>
          ⟨.reply "Пост принят", some st,
           [.update p.guid ⟨true, false, false⟩]⟩
        | .err e =>
          ⟨.reply ("Произошла ошибка: " ++ e), some ⟨none, st.cache⟩,
           [.update p.guid ⟨true, false, false⟩]⟩
    else if u.content == rejectButtonText then
      match st.currentPost with
      | none => ⟨.panic nilDeref, none, []⟩
      | some p =>
        match ur with
        | .ok =>
          ⟨.reply "Пост отклонен", some st,
           [.update p.guid ⟨false, true, false⟩]⟩
        | .err e =>
          ⟨.reply ("Произошла ошибка: " ++ e), some ⟨none, st.cache⟩,
           [.update p.guid ⟨false, true, false⟩]⟩
    else if u.content == skipButtonText then
      match st.currentPost with
      | none => ⟨.panic nilDeref, none, []⟩ -- currentPost.Fields["guid"] on nil
      | some p =>
        ⟨.reply "Пост пропущен", some ⟨none, st.cache.set now p.guid⟩, []⟩
    else
      ⟨.reply "Кнопка не поддерживается", some ⟨none, st.cache⟩, []⟩

/-- `strings.Split(s, ",")` at the character level: splits at every comma;
splitting the empty string yields a single empty field, mirroring Go's
`strings.Split("", ",") == []string{""}`. -/
def splitOnComma : List Char → List (List Char)
  | [] => [[]]
  | c :: rest =>
    if c = ',' then [] :: splitOnComma rest
    else
      match splitOnComma rest with
      | [] => [[c]]
      | f :: fs => (c :: f) :: fs

/-- Decimal digit accumulator for `parseInt64`. -/
def parseDigitsAux : List Char → Nat → Option Nat
  | [], acc => some acc
  | c :: rest, acc =>
    if c.isDigit then parseDigitsAux rest (acc * 10 + (c.toNat - '0'.toNat))
    else none

/-- `strconv.ParseInt(id, 10, 64)`: an optional sign followed by at least one
decimal digit, with the value bounded to int64 (failure otherwise). -/
def parseInt64 (cs : List Char) : Option Int :=
  match cs with
  | [] => none
  | '+' :: rest =>
    if rest = [] then none
    else (parseDigitsAux rest 0).bind
      (fun n => if n < 2 ^ 63 then some (Int.ofNat n) else none)
  | '-' :: rest =>
    if rest = [] then none
    else (parseDigitsAux rest 0).bind
      (fun n => if n ≤ 2 ^ 63 then some (-(Int.ofNat n)) else none)
  | _ =>
    (parseDigitsAux cs 0).bind
      (fun n => if n < 2 ^ 63 then some (Int.ofNat n) else none)

/-- The whitelist construction of `env.New` (`internal/env/env.go`): split
`TELEGRAM_WHITELIST` on commas, allocate `make([]int64, len(sWhiteListIDs))`
(a slice of that many zeros), then `append` each `strconv.ParseInt` result to
it; a parse failure is `log.Fatal`, i.e. the process aborts before producing
a whitelist (modelled as `none`). -/
def envNewWhiteList (s : String) : Option (List Int) :=
  let sWhiteListIDs := splitOnComma s.toList
  sWhiteListIDs.foldlM
    (fun acc id => (parseInt64 id).map (fun i => acc ++ [i]))
    (List.replicate sWhiteListIDs.length 0)

/-! ### Concrete data used by closed theorems and witnesses -/

/-- A concrete candidate record. -/
def postA : Candidate := ⟨"guid-a", "Title A"⟩

/-- A second concrete candidate record. -/
def postB : Candidate := ⟨"guid-b", "Title B"⟩

/-- An empty skip cache. -/
def emptyCache : Cache := ⟨[]⟩

/-! ### Claim theorems -/

/-- C1: the claim says every decision event (approve, reject, skip, or
unrecognized text) arriving with an empty current-candidate slot is answered
"unsupported" with zero backing-store calls.  The code only does so for
unrecognized text; for the three buttons it dereferences the nil
`currentPost` and the process panics, with no reply sent.  This theorem
evaluates the loop body at the failing inputs: authorized sender, empty
slot, each button text. -/
theorem c1_empty_slot_decision_panics :
    (step [1] ⟨none, emptyCache⟩ 0 ⟨1, false, approveButtonText⟩ (.ok []) .ok
      = ⟨.panic nilDeref, none, []⟩)
    ∧ (step [1] ⟨none, emptyCache⟩ 0 ⟨1, false, rejectButtonText⟩ (.ok []) .ok
      = ⟨.panic nilDeref, none, []⟩)
    ∧ (step [1] ⟨none, emptyCache⟩ 0 ⟨1, false, skipButtonText⟩ (.ok []) .ok
      = ⟨.panic nilDeref, none, []⟩)
    ∧ (step [1] ⟨none, emptyCache⟩ 0 ⟨1, false, "anything else"⟩ (.ok []) .ok
      = ⟨.reply "Кнопка не поддерживается", some ⟨none, emptyCache⟩, []⟩) :=
  ⟨rfl, rfl, rfl, rfl⟩

/-- C2: the claim says a fetch whose query succeeds but yields no record
outside the skip cache produces a "none available" message, leaves the slot
unset and never crashes.  In the code, when the slot is empty and the scan
finds nothing, `currentPost` stays nil and the reply formatting dereferences
it: the process panics after the one (successful) query.  Evaluated here at
an authorized `getpost` with an empty result set and empty slot. -/
theorem c2_fetch_no_eligible_panics :
    step [1] ⟨none, emptyCache⟩ 0 ⟨1, true, "getpost"⟩ (.ok []) .ok
      = ⟨.panic nilDeref, none, [.query]⟩ :=
  rfl

/-- C4 counterexample: the claim says every backing-store failure — query or
update — is logged, surfaced as an error reply, clears the pending
candidate, and does not abort the process.  On a query failure the code runs
`log.Panic(err)`: the process aborts, no reply is sent, and the pending
candidate is not cleared. -/
theorem c4_counterexample_query_failure_aborts :
    step [1] ⟨some postA, emptyCache⟩ 0 ⟨1, true, "getpost"⟩ (.err "airtable down") .ok
      = ⟨.panic "airtable down", none, [.query]⟩ :=
  rfl

/-- C9 counterexample: the claim says that after a second fetch issued while
a candidate is pending, the slot never still holds the first candidate.
When the second fetch returns no eligible record the scan assigns nothing,
so the slot still holds the first candidate (which is even re-presented to
the operator). -/
theorem c9_counterexample_fetch_keeps_old_candidate :
    step [1] ⟨some postA, emptyCache⟩ 0 ⟨1, true, "getpost"⟩ (.ok []) .ok
      = ⟨.reply ("Пост: " ++ postA.title ++ "\n" ++ postA.guid),
         some ⟨some postA, emptyCache⟩, [.query]⟩ :=
  rfl

/-- C7: an event whose sender id fails the whitelist test is logged and
dropped: the loop `continue`s before constructing any reply, so there are
zero outbound calls (no reply, no backing-store call) and the state is
returned unchanged. -/
theorem c7_unauthorized_event_dropped (wl : List Int) (st : BotState) (now : Nat)
    (u : Update) (qr : QueryResult) (ur : UpdResult)
    (hauth : IDContains wl u.senderId = false) :
    step wl st now u qr ur = ⟨.dropped, some st, []⟩ := by
  simp [step, hauth]

/-- Witness for C7 at a concrete unauthorized sender. -/
theorem c7_unauthorized_event_dropped_witness :
    IDContains [1] 2 = false
    ∧ step [1] ⟨none, emptyCache⟩ 0 ⟨2, true, "getpost"⟩ (.ok []) .ok
        = ⟨.dropped, some ⟨none, emptyCache⟩, []⟩ :=
  ⟨by decide,
   c7_unauthorized_event_dropped [1] ⟨none, emptyCache⟩ 0 ⟨2, true, "getpost"⟩
     (.ok []) .ok (by decide)⟩

/-! ### Helper lemmas about the button texts -/

theorem reject_ne_approve : rejectButtonText ≠ approveButtonText := by decide

theorem skip_ne_approve : skipButtonText ≠ approveButtonText := by decide

theorem skip_ne_reject : skipButtonText ≠ rejectButtonText := by decide

/-- C3 counterexample: the claim says the slot is cleared after every
decision handled with a non-empty slot, including a successful approve.  On
a successful approve (or reject) the code never assigns `currentPost = nil`
— only the error branch does — so the slot still holds the candidate. -/
theorem c3_counterexample_successful_approve_keeps_slot :
    step [1] ⟨some postA, emptyCache⟩ 0 ⟨1, false, approveButtonText⟩ (.ok []) .ok
      = ⟨.reply "Пост принят", some ⟨some postA, emptyCache⟩,
         [.update postA.guid ⟨true, false, false⟩]⟩ :=
  rfl

/-- C3 amended: with a non-empty slot, the slot is cleared after an approve
or reject whose update fails, after a skip, and after unrecognized input;
after a successful approve or reject the slot is NOT cleared and still holds
the candidate. -/
theorem c3_amended_slot_clearing (wl : List Int) (st : BotState) (now : Nat)
    (id : Int) (qr : QueryResult) (p : Candidate) (e t : String)
    (hp : st.currentPost = some p) (hauth : IDContains wl id = true)
    (ht1 : t ≠ approveButtonText) (ht2 : t ≠ rejectButtonText)
    (ht3 : t ≠ skipButtonText) :
    (step wl st now ⟨id, false, approveButtonText⟩ qr .ok).next = some st
    ∧ (step wl st now ⟨id, false, rejectButtonText⟩ qr .ok).next = some st
    ∧ (step wl st now ⟨id, false, approveButtonText⟩ qr (.err e)).next
        = some ⟨none, st.cache⟩
    ∧ (step wl st now ⟨id, false, rejectButtonText⟩ qr (.err e)).next
        = some ⟨none, st.cache⟩
    ∧ (step wl st now ⟨id, false, skipButtonText⟩ qr .ok).next
        = some ⟨none, st.cache.set now p.guid⟩
    ∧ (step wl st now ⟨id, false, t⟩ qr .ok).next = some ⟨none, st.cache⟩ := by
  simp [step, hauth, hp, beq_iff_eq, reject_ne_approve, skip_ne_approve,
    skip_ne_reject, ht1, ht2, ht3]

/-- Witness for C3's amended theorem at concrete inputs. -/
theorem c3_amended_slot_clearing_witness :
    (step [1] ⟨some postA, emptyCache⟩ 0 ⟨1, false, approveButtonText⟩ (.ok []) .ok).next
        = some ⟨some postA, emptyCache⟩
    ∧ (step [1] ⟨some postA, emptyCache⟩ 0 ⟨1, false, rejectButtonText⟩ (.ok []) .ok).next
        = some ⟨some postA, emptyCache⟩
    ∧ (step [1] ⟨some postA, emptyCache⟩ 0 ⟨1, false, approveButtonText⟩ (.ok []) (.err "boom")).next
        = some ⟨none, emptyCache⟩
    ∧ (step [1] ⟨some postA, emptyCache⟩ 0 ⟨1, false, rejectButtonText⟩ (.ok []) (.err "boom")).next
        = some ⟨none, emptyCache⟩
    ∧ (step [1] ⟨some postA, emptyCache⟩ 0 ⟨1, false, skipButtonText⟩ (.ok []) .ok).next
        = some ⟨none, emptyCache.set 0 postA.guid⟩
    ∧ (step [1] ⟨some postA, emptyCache⟩ 0 ⟨1, false, "anything else"⟩ (.ok []) .ok).next
        = some ⟨none, emptyCache⟩ :=
  c3_amended_slot_clearing [1] ⟨some postA, emptyCache⟩ 0 1 (.ok []) postA
    "boom" "anything else" rfl (by decide) (by decide) (by decide) (by decide)

/-- C4 amended: a decision-update failure is logged, surfaced to the
operator as an error reply, and the pending candidate is cleared without
aborting; a fetch-query failure, by contrast, aborts the process via
`log.Panic` with no reply and without touching the slot. -/
theorem c4_amended_store_failures (wl : List Int) (st : BotState) (now : Nat)
    (id : Int) (qr : QueryResult) (p : Candidate) (e : String)
    (hp : st.currentPost = some p) (hauth : IDContains wl id = true) :
    (step wl st now ⟨id, false, approveButtonText⟩ qr (.err e)
       = ⟨.reply ("Произошла ошибка: " ++ e), some ⟨none, st.cache⟩,
          [.update p.guid ⟨true, false, false⟩]⟩)
    ∧ (step wl st now ⟨id, false, rejectButtonText⟩ qr (.err e)
       = ⟨.reply ("Произошла ошибка: " ++ e), some ⟨none, st.cache⟩,
          [.update p.guid ⟨false, true, false⟩]⟩)
    ∧ (step wl st now ⟨id, true, "getpost"⟩ (.err e) .ok
       = ⟨.panic e, none, [.query]⟩) := by
  simp [step, hauth, hp, beq_iff_eq, reject_ne_approve]

/-- Witness for C4's amended theorem at concrete inputs. -/
theorem c4_amended_store_failures_witness :
    (step [1] ⟨some postA, emptyCache⟩ 0 ⟨1, false, approveButtonText⟩ (.ok []) (.err "boom")
       = ⟨.reply ("Произошла ошибка: " ++ "boom"), some ⟨none, emptyCache⟩,
          [.update postA.guid ⟨true, false, false⟩]⟩)
    ∧ (step [1] ⟨some postA, emptyCache⟩ 0 ⟨1, false, rejectButtonText⟩ (.ok []) (.err "boom")
       = ⟨.reply ("Произошла ошибка: " ++ "boom"), some ⟨none, emptyCache⟩,
          [.update postA.guid ⟨false, true, false⟩]⟩)
    ∧ (step [1] ⟨some postA, emptyCache⟩ 0 ⟨1, true, "getpost"⟩ (.err "boom") .ok
       = ⟨.panic "boom", none, [.query]⟩) :=
  c4_amended_store_failures [1] ⟨some postA, emptyCache⟩ 0 1 (.ok []) postA
    "boom" rfl (by decide)

/-- C6: with a pending candidate, an approve issues exactly one partial
update setting (IsApproved, IsRejected, ToInvistigate) = (true, false,
false) on that candidate, and a reject exactly one setting (false, true,
false); the Go map literals contain no other fields, and this holds whether
the update succeeds or fails. -/
theorem c6_partial_update_fields (wl : List Int) (st : BotState) (now : Nat)
    (id : Int) (qr : QueryResult) (ur : UpdResult) (p : Candidate)
    (hp : st.currentPost = some p) (hauth : IDContains wl id = true) :
    (step wl st now ⟨id, false, approveButtonText⟩ qr ur).calls
      = [.update p.guid ⟨true, false, false⟩]
    ∧ (step wl st now ⟨id, false, rejectButtonText⟩ qr ur).calls
      = [.update p.guid ⟨false, true, false⟩] := by
  cases ur <;>
    simp [step, hauth, hp, beq_iff_eq, reject_ne_approve]

/-- Witness for C6 at concrete inputs. -/
theorem c6_partial_update_fields_witness :
    (step [1] ⟨some postA, emptyCache⟩ 0 ⟨1, false, approveButtonText⟩ (.ok []) .ok).calls
      = [.update postA.guid ⟨true, false, false⟩]
    ∧ (step [1] ⟨some postA, emptyCache⟩ 0 ⟨1, false, rejectButtonText⟩ (.ok []) .ok).calls
      = [.update postA.guid ⟨false, true, false⟩] :=
  c6_partial_update_fields [1] ⟨some postA, emptyCache⟩ 0 1 (.ok []) .ok postA
    rfl (by decide)

/-- Specification-level description of "the first record in the returned
order whose identifier is absent from the skip cache": the records split as
`l1 ++ r :: l2` where `r` is eligible and everything before it is cached. -/
def firstEligibleSpec (records : List Candidate) (c : Cache) (now : Nat)
    (r : Candidate) : Prop :=
  ∃ l1 l2, records = l1 ++ r :: l2 ∧ c.has now r.guid = false
    ∧ ∀ x ∈ l1, c.has now x.guid = true

/-- `List.find?` returns the first element satisfying the predicate: the
list splits around the result, with the predicate false on the prefix. -/
theorem find?_layout {α : Type} {p : α → Bool} {l : List α} {r : α}
    (h : l.find? p = some r) :
    ∃ l1 l2, l = l1 ++ r :: l2 ∧ p r = true ∧ ∀ x ∈ l1, p x = false := by
  induction l with
  | nil => simp at h
  | cons a t ih =>
    by_cases hpa : p a = true
    · rw [List.find?_cons_of_pos _ hpa] at h
      obtain rfl : a = r := by simpa using h
      exact ⟨[], t, rfl, hpa, by simp⟩
    · rw [List.find?_cons_of_neg _ hpa] at h
      obtain ⟨l1, l2, rfl, hr, hall⟩ := ih h
      refine ⟨a :: l1, l2, rfl, hr, ?_⟩
      intro x hx
      rcases List.mem_cons.mp hx with rfl | hx
      · exact Bool.eq_false_iff.mpr hpa
      · exact hall x hx

/-- C5: when a fetch sets the current candidate (the scan finds an eligible
record), the selected record's guid is absent from the skip cache at
selection time and it is the first record, in the query's returned order,
whose guid is absent from the cache. -/
theorem c5_fetch_selects_first_eligible (wl : List Int) (st : BotState)
    (now : Nat) (id : Int) (records : List Candidate) (ur : UpdResult)
    (r : Candidate)
    (hauth : IDContains wl id = true)
    (hfind : records.find? (fun c => !(st.cache.has now c.guid)) = some r) :
    (step wl st now ⟨id, true, "getpost"⟩ (.ok records) ur).next
        = some ⟨some r, st.cache⟩
    ∧ st.cache.has now r.guid = false
    ∧ firstEligibleSpec records st.cache now r := by
  refine ⟨by simp [step, hauth, hfind], ?_, ?_⟩
  · have := List.find?_some hfind
    simpa using this
  · obtain ⟨l1, l2, hsplit, hr, hall⟩ := find?_layout hfind
    refine ⟨l1, l2, hsplit, by simpa using hr, ?_⟩
    intro x hx
    have := hall x hx
    simpa using this

/-- Witness for C5: `postA` is cached, `postB` is not, so the fetch selects
`postB` (the first uncached record). -/
theorem c5_fetch_selects_first_eligible_witness :
    (step [1] ⟨none, ⟨[("guid-a", 100)]⟩⟩ 0 ⟨1, true, "getpost"⟩
        (.ok [postA, postB]) .ok).next
      = some ⟨some postB, ⟨[("guid-a", 100)]⟩⟩
    ∧ (⟨[("guid-a", 100)]⟩ : Cache).has 0 postB.guid = false
    ∧ firstEligibleSpec [postA, postB] ⟨[("guid-a", 100)]⟩ 0 postB :=
  c5_fetch_selects_first_eligible [1] ⟨none, ⟨[("guid-a", 100)]⟩⟩ 0 1
    [postA, postB] .ok postB (by decide) (by decide)

/-- After `set`, the key answers `has` exactly until its expiry instant
`now + TTL`. -/
theorem Cache.has_set_self (c : Cache) (now m : Nat) (k : String) :
    (c.set now k).has m k = decide (m ≤ now + ttlSeconds) := by
  unfold Cache.set Cache.has
  simp only [List.any_cons, beq_self_eq_true, Bool.true_and]
  have htail : ((c.entries.filter (fun e => !(e.1 == k))).any
      (fun e => e.1 == k && decide (m ≤ e.2))) = false := by
    rw [List.any_eq_false]
    intro e he
    have h1 := (List.mem_filter.mp he).2
    simp only [Bool.not_eq_true', beq_eq_false_iff_ne] at h1
    simp [h1]
  rw [htail, Bool.or_false]

/-- C8: with a pending candidate, a skip replies "skipped", makes no
backing-store call, clears the slot and inserts the candidate's guid into
the skip cache with the default 24-hour expiry; any fetch scan within those
24 hours cannot select a record bearing that guid, and strictly after the
expiry the guid answers `has = false` again, so such records are eligible
again. -/
theorem c8_skip_excludes_for_24_hours (wl : List Int) (st : BotState)
    (now : Nat) (id : Int) (qr : QueryResult) (ur : UpdResult) (p : Candidate)
    (hp : st.currentPost = some p) (hauth : IDContains wl id = true) :
    step wl st now ⟨id, false, skipButtonText⟩ qr ur
      = ⟨.reply "Пост пропущен", some ⟨none, st.cache.set now p.guid⟩, []⟩
    ∧ (∀ m, m ≤ now + ttlSeconds →
        (st.cache.set now p.guid).has m p.guid = true)
    ∧ (∀ m (records : List Candidate) (r : Candidate), m ≤ now + ttlSeconds →
        records.find? (fun c => !((st.cache.set now p.guid).has m c.guid)) = some r →
        r.guid ≠ p.guid)
    ∧ (∀ m, now + ttlSeconds < m →
        (st.cache.set now p.guid).has m p.guid = false) := by
  refine ⟨?_, ?_, ?_, ?_⟩
  · simp [step, hauth, hp, beq_iff_eq, skip_ne_approve, skip_ne_reject]
  · intro m hm
    rw [Cache.has_set_self]
    simpa using hm
  · intro m records r hm hfind hguid
    have hr := List.find?_some hfind
    rw [Bool.not_eq_true', hguid, Cache.has_set_self] at hr
    simp [hm] at hr
  · intro m hm
    rw [Cache.has_set_self]
    simpa using Nat.not_le.mpr hm

/-- Witness for C8: skipping `postA` at time 0 caches its guid; one hour
later it is still excluded, one second past the 24-hour expiry it is not. -/
theorem c8_skip_excludes_for_24_hours_witness :
    step [1] ⟨some postA, emptyCache⟩ 0 ⟨1, false, skipButtonText⟩ (.ok []) .ok
      = ⟨.reply "Пост пропущен", some ⟨none, emptyCache.set 0 postA.guid⟩, []⟩
    ∧ (emptyCache.set 0 postA.guid).has 3600 postA.guid = true
    ∧ (emptyCache.set 0 postA.guid).has (ttlSeconds + 1) postA.guid = false :=
  have h := c8_skip_excludes_for_24_hours [1] ⟨some postA, emptyCache⟩ 0 1
    (.ok []) .ok postA rfl (by decide)
  ⟨h.1, h.2.1 3600 (by decide), h.2.2.2 (ttlSeconds + 1) (by decide)⟩

/-- C9 amended: a fetch issued while a candidate is pending silently
overwrites the slot with the newly selected record whenever the scan finds
an eligible one; when the scan finds none, the slot retains the first
candidate. -/
theorem c9_amended_second_fetch (wl : List Int) (st : BotState) (now : Nat)
    (id : Int) (records : List Candidate) (ur : UpdResult) (p : Candidate)
    (hp : st.currentPost = some p) (hauth : IDContains wl id = true) :
    (∀ r, records.find? (fun c => !(st.cache.has now c.guid)) = some r →
      (step wl st now ⟨id, true, "getpost"⟩ (.ok records) ur).next
        = some ⟨some r, st.cache⟩)
    ∧ (records.find? (fun c => !(st.cache.has now c.guid)) = none →
      (step wl st now ⟨id, true, "getpost"⟩ (.ok records) ur).next
        = some ⟨some p, st.cache⟩) := by
  constructor
  · intro r hfind
    simp [step, hauth, hfind]
  · intro hfind
    simp [step, hauth, hfind, hp]

/-- Witness for C9's amended theorem: a fetch finding `postB` overwrites the
pending `postA`; a fetch finding nothing leaves `postA` pending. -/
theorem c9_amended_second_fetch_witness :
    (step [1] ⟨some postA, emptyCache⟩ 0 ⟨1, true, "getpost"⟩ (.ok [postB]) .ok).next
      = some ⟨some postB, emptyCache⟩
    ∧ (step [1] ⟨some postA, emptyCache⟩ 0 ⟨1, true, "getpost"⟩ (.ok []) .ok).next
      = some ⟨some postA, emptyCache⟩ :=
  ⟨(c9_amended_second_fetch [1] ⟨some postA, emptyCache⟩ 0 1 [postB] .ok postA
      rfl (by decide)).1 postB (by decide),
   (c9_amended_second_fetch [1] ⟨some postA, emptyCache⟩ 0 1 [] .ok postA
      rfl (by decide)).2 rfl⟩

/-- `strings.Split` never returns an empty slice: there is always at least
one (possibly empty) field. -/
theorem splitOnComma_ne_nil (cs : List Char) : splitOnComma cs ≠ [] := by
  induction cs with
  | nil => simp [splitOnComma]
  | cons c rest ih =>
    unfold splitOnComma
    by_cases hc : c = ','
    · simp [hc]
    · simp only [if_neg hc]
      cases h : splitOnComma rest <;> simp

/-- Parse every field, failing on the first unparseable one (the order of
effects matches the `env.New` loop, which `log.Fatal`s on the first bad
field). -/
def parseAll : List (List Char) → Option (List Int)
  | [] => some []
  | a :: t => (parseInt64 a).bind (fun i => (parseAll t).map (fun is => i :: is))

/-- The `env.New` loop, which appends each parsed id to the accumulator and
aborts on the first parse failure, equals parsing all fields and appending
the results. -/
theorem foldlM_parse_append (parts : List (List Char)) (acc : List Int) :
    parts.foldlM (fun acc id => (parseInt64 id).map (fun i => acc ++ [i])) acc
      = (parseAll parts).map (fun ids => acc ++ ids) := by
  induction parts generalizing acc with
  | nil => simp [parseAll]
  | cons a t ih =>
    cases ha : parseInt64 a with
    | none => simp [List.foldlM_cons, parseAll, ha]
    | some i =>
      rw [List.foldlM_cons, ha]
      show List.foldlM (fun acc id => (parseInt64 id).map (fun i => acc ++ [i]))
        (acc ++ [i]) t = _
      rw [ih]
      simp only [parseAll, ha, Option.some_bind]
      cases parseAll t <;> simp

/-- A successful `parseAll` preserves length. -/
theorem parseAll_length (parts : List (List Char)) (ids : List Int)
    (h : parseAll parts = some ids) : ids.length = parts.length := by
  induction parts generalizing ids with
  | nil => simp [parseAll] at h; simp [← h]
  | cons a t ih =>
    simp only [parseAll] at h
    cases ha : parseInt64 a with
    | none => rw [ha] at h; simp at h
    | some i =>
      rw [ha] at h
      cases ht : parseAll t with
      | none => rw [ht] at h; simp at h
      | some tids =>
        rw [ht] at h
        simp at h
        simp [← h, ih tids ht]

/-- C10: when `TELEGRAM_WHITELIST` splits into fields that all parse,
`env.New` yields a whitelist of length `2n`: `n` zeros from
`make([]int64, n)` followed by the `n` parsed ids appended after them — so
`0` is always a member and a sender whose chat id is `0` passes
`IDContains`. -/
theorem c10_whitelist_zero_padding (s : String) (ids : List Int)
    (h : parseAll (splitOnComma s.toList) = some ids) :
    envNewWhiteList s
      = some (List.replicate (splitOnComma s.toList).length 0 ++ ids)
    ∧ ids.length = (splitOnComma s.toList).length
    ∧ (List.replicate (splitOnComma s.toList).length 0 ++ ids).length
        = 2 * (splitOnComma s.toList).length
    ∧ IDContains (List.replicate (splitOnComma s.toList).length 0 ++ ids) 0
        = true := by
  have hlen := parseAll_length _ _ h
  have hn : (splitOnComma s.toList).length ≠ 0 := by
    simpa using splitOnComma_ne_nil s.toList
  refine ⟨?_, hlen, ?_, ?_⟩
  · unfold envNewWhiteList
    rw [foldlM_parse_append, h, Option.map_some']
  · simp [hlen]
    ring
  · have h0 : (0 : Int) ∈ List.replicate (splitOnComma s.toList).length 0 ++ ids :=
      List.mem_append_left _ (List.mem_replicate.mpr ⟨hn, rfl⟩)
    exact List.elem_iff.mpr h0

/-- Witness for C10 at the concrete value `TELEGRAM_WHITELIST="123,456"`. -/
theorem c10_whitelist_zero_padding_witness :
    envNewWhiteList "123,456"
      = some (List.replicate (splitOnComma "123,456".toList).length 0 ++ [123, 456])
    ∧ ([123, 456] : List Int).length = (splitOnComma "123,456".toList).length
    ∧ (List.replicate (splitOnComma "123,456".toList).length 0 ++ [123, 456]).length
        = 2 * (splitOnComma "123,456".toList).length
    ∧ IDContains (List.replicate (splitOnComma "123,456".toList).length 0 ++ [123, 456]) 0
        = true :=
  c10_whitelist_zero_padding "123,456" [123, 456] (by decide)

end PostApprover
